import Mathlib

/-!
Verification of the `state` package of max-pantom/daily: the persisted
time-tracking state engine (session/break lifecycle, day-boundary
normalization, aggregation, projections).

Modelling conventions (shallow embedding of the Go source):
* Timestamps are whole seconds (`Nat`) in a fixed-offset local time zone,
  so a local calendar day is exactly 86400 seconds and the local date of a
  timestamp `t` is the day index `t / 86400`.  Go's `dateKey` renders that
  date as a `"YYYY-MM-DD"` string; since the rendering is injective we key
  day logs by the day index itself.
* Go's `map[string]*DayLog` is modelled as an association list with
  insert-or-replace update (`setDay`) and lookup (`getDay`).
* Go methods mutate the receiver in place and return an `error`; we model
  each lifecycle operation as returning `Except Err α × State` where the
  second component is the receiver's final value, so that behaviour on the
  error path (whether the state was already mutated) is part of the model.
* `int(d.Seconds())` / `int(d.Minutes())` truncate toward zero; wherever the
  Go code has guarded `now < start` the operands are non-negative and the
  truncation is `Nat` division / subtraction.  `TodaySummary` has no such
  guard, so there we keep `Int` and spell out the toward-zero truncation.
-/

namespace Daily

/-- Error values returned by the lifecycle operations, one per distinct
`errors.New`/`fmt.Errorf` site in the Go source. -/
inductive Err where
  /-- Go error "session already running since ...". -/
  | alreadyRunning
  /-- Go error "no active session". -/
  | noActiveSession
  /-- Go error "stop time is before start time". -/
  | clockSkewStop
  /-- Go error "break already running". -/
  | alreadyOnBreak
  /-- Go error "no active break". -/
  | noActiveBreak
  /-- Go error "break end before start". -/
  | clockSkewBreak
deriving DecidableEq, Repr

/-- Go `Session`: `{Start time.Time; End *time.Time; Tags []string; Note string}`. -/
structure Session where
  start : Nat
  endTime : Option Nat
  tags : List String
  note : String
deriving DecidableEq, Repr

/-- Go `DayLog`. `date` is the day index standing for the `"YYYY-MM-DD"` key. -/
structure DayLog where
  date : Nat
  sessions : List Session
  totalWorkMinutes : Nat
  totalWorkSeconds : Nat
  totalBreakMinutes : Nat
  breakCount : Nat
  goalMinutes : Nat
deriving DecidableEq, Repr

/-- Go `State`: goal/break settings, the two active spans, per-day logs. -/
structure State where
  goalMinutes : Nat
  breakIntervalMinutes : Nat
  activeSession : Option Session
  activeBreak : Option Session
  days : List (Nat × DayLog)
deriving DecidableEq, Repr

/-- Lookup in the days map (Go `s.Days[key]` read). -/
def getDay : List (Nat × DayLog) → Nat → Option DayLog
  | [], _ => none
  | (k, v) :: rest, key => if k = key then some v else getDay rest key

/-- Insert-or-replace in the days map (Go `s.Days[key] = log`). -/
def setDay : List (Nat × DayLog) → Nat → DayLog → List (Nat × DayLog)
  | [], key, log => [(key, log)]
  | (k, v) :: rest, key, log =>
      if k = key then (key, log) :: rest else (k, v) :: setDay rest key log

/-- Go `dateKey`: the local calendar date of a timestamp, as a day index. -/
def dateKey (t : Nat) : Nat := t / 86400

/-- Go `sameDate`: two timestamps fall on the same local calendar date. -/
def sameDate (a b : Nat) : Bool := dateKey a = dateKey b

/-- Go `midnight`: 00:00:00 of `t`'s local calendar date. -/
def midnight (t : Nat) : Nat := t / 86400 * 86400

/-- Go `(*State).dayLog`: the existing log for `key`, or a fresh one carrying
the current goal.  (The Go version also inserts the fresh log into the map;
every caller re-inserts the final log under the same key, so the resulting
map is the one our callers build with `setDay`.) -/
def State.dayLog (s : State) (key : Nat) : DayLog :=
  match getDay s.days key with
  | some log => log
  | none =>
      { date := key, sessions := [], totalWorkMinutes := 0, totalWorkSeconds := 0,
        totalBreakMinutes := 0, breakCount := 0, goalMinutes := s.goalMinutes }

/-- Go `(*State).StartSession`: sets an active session if none is running. -/
def State.StartSession (s : State) (now : Nat) (tags : List String) (note : String) :
    Except Err Unit × State :=
  match s.activeSession with
  | some _ => (.error .alreadyRunning, s)
  | none =>
      (.ok (), { s with activeSession := some { start := now, endTime := none, tags := tags, note := note } })

/-- Go `(*State).StopSession`: closes the active session and records it to
today's log, returning the elapsed whole minutes. -/
def State.StopSession (s : State) (now : Nat) : Except Err Nat × State :=
  match s.activeSession with
  | none => (.error .noActiveSession, s)
  | some sess =>
      if now < sess.start then (.error .clockSkewStop, s)
      else
        let seconds := now - sess.start
        let closed : Session :=
          { start := sess.start, endTime := some now, tags := sess.tags, note := sess.note }
        let dayKey := dateKey now
        let log := s.dayLog dayKey
        let log :=
          if log.totalWorkSeconds = 0 ∧ 0 < log.totalWorkMinutes then
            { log with totalWorkSeconds := log.totalWorkMinutes * 60 }
          else log
        let log :=
          { log with
            sessions := log.sessions ++ [closed]
            totalWorkSeconds := log.totalWorkSeconds + seconds }
        let log := { log with totalWorkMinutes := log.totalWorkSeconds / 60, goalMinutes := s.goalMinutes }
        (.ok (seconds / 60), { s with days := setDay s.days dayKey log, activeSession := none })

/-- Go `(*State).StartBreak`: starts a break; a running work session is
stopped (with full `StopSession` effects) first. -/
def State.StartBreak (s : State) (now : Nat) : Except Err Unit × State :=
  match s.activeBreak with
  | some _ => (.error .alreadyOnBreak, s)
  | none =>
      match s.activeSession with
      | some _ =>
          match s.StopSession now with
          | (.error e, s1) => (.error e, s1)
          | (.ok _, s1) =>
              (.ok (), { s1 with activeBreak := some { start := now, endTime := none, tags := [], note := "" } })
      | none =>
          (.ok (), { s with activeBreak := some { start := now, endTime := none, tags := [], note := "" } })

/-- Go `(*State).StopBreak`: ends the active break, recording whole minutes
and a break count on today's log (breaks keep no per-span list). -/
def State.StopBreak (s : State) (now : Nat) : Except Err Nat × State :=
  match s.activeBreak with
  | none => (.error .noActiveBreak, s)
  | some br =>
      if now < br.start then (.error .clockSkewBreak, s)
      else
        let minutes := (now - br.start) / 60
        let dayKey := dateKey now
        let log := s.dayLog dayKey
        let log :=
          { log with breakCount := log.breakCount + 1, totalBreakMinutes := log.totalBreakMinutes + minutes }
        (.ok minutes, { s with days := setDay s.days dayKey log, activeBreak := none })

/-- Go's `int(now.Sub(start).Minutes())`: whole minutes between two
timestamps, truncated toward zero (negative when `now < start`). -/
def minutesBetween (start now : Nat) : Int :=
  if start ≤ now then ((now - start) / 60 : Nat) else -(((start - now) / 60 : Nat) : Int)

/-- Go `(*State).TodaySummary`: today's stored work minutes plus minutes
elapsed on a currently active session; read-only. -/
def State.TodaySummary (s : State) (now : Nat) : Int × Int :=
  let base : Int :=
    match getDay s.days (dateKey now) with
    | some log => (log.totalWorkMinutes : Int)
    | none => 0
  match s.activeSession with
  | none => (base, 0)
  | some sess =>
      let activeMinutes := minutesBetween sess.start now
      (base + activeMinutes, activeMinutes)

/-- Go `(*State).addWorkSpan`: record a closed work span on the log of the
span's start date (seconds-accurate, minutes re-derived, goal snapshot
refreshed). -/
def State.addWorkSpan (s : State) (start endT : Nat) (tags : List String) (note : String) : State :=
  let seconds := endT - start
  if seconds = 0 then s
  else
    let dayKey := dateKey start
    let log := s.dayLog dayKey
    let log :=
      if log.totalWorkSeconds = 0 ∧ 0 < log.totalWorkMinutes then
        { log with totalWorkSeconds := log.totalWorkMinutes * 60 }
      else log
    let log :=
      { log with
        sessions := log.sessions ++ [({ start := start, endTime := some endT, tags := tags, note := note } : Session)]
        totalWorkSeconds := log.totalWorkSeconds + seconds }
    let log := { log with totalWorkMinutes := log.totalWorkSeconds / 60, goalMinutes := s.goalMinutes }
    { s with days := setDay s.days dayKey log }

/-- Go `(*State).addBreakSpan`: record a closed break span (whole minutes,
break count) on the log of the span's start date. -/
def State.addBreakSpan (s : State) (start endT : Nat) : State :=
  let minutes := (endT - start) / 60
  if minutes = 0 then s
  else
    let dayKey := dateKey start
    let log := s.dayLog dayKey
    let log :=
      { log with totalBreakMinutes := log.totalBreakMinutes + minutes, breakCount := log.breakCount + 1 }
    { s with days := setDay s.days dayKey log }

/-- First half of Go `(*State).Normalize`: fold the active work session
across the day boundary. -/
def State.normalizeSession (s : State) (now : Nat) : State :=
  match s.activeSession with
  | none => s
  | some sess =>
      if sameDate sess.start now then s
      else
        let mid := midnight now
        if sess.start < mid then
          let s1 :=
            if 0 < mid - sess.start then s.addWorkSpan sess.start mid sess.tags sess.note else s
          { s1 with activeSession := some { sess with start := mid } }
        else s

/-- Second half of Go `(*State).Normalize`: fold the active break across the
day boundary. -/
def State.normalizeBreak (s : State) (now : Nat) : State :=
  match s.activeBreak with
  | none => s
  | some br =>
      if sameDate br.start now then s
      else
        let mid := midnight now
        if br.start < mid then
          let s1 := if 0 < mid - br.start then s.addBreakSpan br.start mid else s
          { s1 with activeBreak := some { br with start := mid } }
        else s

/-- Go `(*State).Normalize`: session block, then break block. -/
def State.Normalize (s : State) (now : Nat) : State :=
  (s.normalizeSession now).normalizeBreak now

/-- Zero-pad to two digits, as Go's `%02d` for a value in `[0, 59]`. -/
def pad2 (n : Int) : String :=
  if n < 10 then "0" ++ toString n else toString n

/-- Go `HumanMinutes`: render minutes as an `"Nm"` / `"Hh"` / `"HhMMm"` string. -/
def HumanMinutes (total : Int) : String :=
  if total < 60 then toString total ++ "m"
  else
    let hours := total / 60
    let mins := total % 60
    if mins = 0 then toString hours ++ "h"
    else toString hours ++ "h" ++ pad2 mins ++ "m"

/-- A default-valued state with no logs and no active spans, as `Load`
produces on first run (goal 12h, break interval 120m). -/
def emptyState : State :=
  { goalMinutes := 720, breakIntervalMinutes := 120, activeSession := none,
    activeBreak := none, days := [] }

/-- The empty state with a session active since 09:00 (t = 32400s). -/
def sample0900 : State :=
  { emptyState with
    activeSession := some { start := 32400, endTime := none, tags := [], note := "" } }

/-- The empty state with a session active since t = 100s. -/
def sample100 : State :=
  { emptyState with
    activeSession := some { start := 100, endTime := none, tags := [], note := "" } }

/-- The empty state with a session active since 23:50 of day 0 (t = 85800s). -/
def lateNightState : State :=
  { emptyState with
    activeSession := some { start := 85800, endTime := none, tags := [], note := "" } }

/-- The empty state with a session active since 10:00 of day 0 (t = 36000s),
still running two midnights later. -/
def multiDayState : State :=
  { emptyState with
    activeSession := some { start := 36000, endTime := none, tags := [], note := "" } }

/-- The empty state with a break active since 10:00 of day 0 (t = 36000s),
still running two midnights later. -/
def multiDayBreakState : State :=
  { emptyState with
    activeBreak := some { start := 36000, endTime := none, tags := [], note := "" } }

/-- A state holding a legacy day log: minutes recorded but no seconds, plus a
session active since t = 0. -/
def legacyState : State :=
  { emptyState with
    activeSession := some { start := 0, endTime := none, tags := [], note := "" },
    days := [(0, { date := 0, sessions := [], totalWorkMinutes := 5, totalWorkSeconds := 0,
                   totalBreakMinutes := 0, breakCount := 0, goalMinutes := 720 })] }

/-- A day log whose recorded goal snapshot (555) differs from the current
global goal, to observe that break writes do not refresh it. -/
def snapshotLog : DayLog :=
  { date := 0, sessions := [], totalWorkMinutes := 0, totalWorkSeconds := 0,
    totalBreakMinutes := 0, breakCount := 0, goalMinutes := 555 }

/-- The empty state carrying `snapshotLog` for day 0 and a break active since
t = 0. -/
def snapshotState : State :=
  { emptyState with
    activeBreak := some { start := 0, endTime := none, tags := [], note := "" },
    days := [(0, snapshotLog)] }

/-! ### Basic lemmas about the days map and the span-recording helpers -/

theorem getDay_setDay (m : List (Nat × DayLog)) (k k' : Nat) (v : DayLog) :
    getDay (setDay m k v) k' = if k = k' then some v else getDay m k' := by
  induction m with
  | nil => by_cases h : k = k' <;> simp [setDay, getDay, h]
  | cons hd tl ih =>
      obtain ⟨k0, v0⟩ := hd
      by_cases h0 : k0 = k
      · subst h0
        by_cases h1 : k0 = k' <;> simp [setDay, getDay, h1]
      · by_cases h1 : k0 = k'
        · subst h1
          have hk : ¬ (k = k0) := fun h => h0 h.symm
          simp [setDay, getDay, h0, hk]
        · simp [setDay, getDay, h0, h1, ih]

theorem getDay_setDay_self (m : List (Nat × DayLog)) (k : Nat) (v : DayLog) :
    getDay (setDay m k v) k = some v := by
  rw [getDay_setDay]
  simp

theorem getDay_setDay_ne (m : List (Nat × DayLog)) (k k' : Nat) (v : DayLog) (h : k ≠ k') :
    getDay (setDay m k v) k' = getDay m k' := by
  rw [getDay_setDay, if_neg h]

theorem addWorkSpan_activeSession (s : State) (a b : Nat) (tags : List String) (note : String) :
    (s.addWorkSpan a b tags note).activeSession = s.activeSession := by
  simp only [State.addWorkSpan]
  split <;> rfl

theorem addWorkSpan_activeBreak (s : State) (a b : Nat) (tags : List String) (note : String) :
    (s.addWorkSpan a b tags note).activeBreak = s.activeBreak := by
  simp only [State.addWorkSpan]
  split <;> rfl

theorem addBreakSpan_activeSession (s : State) (a b : Nat) :
    (s.addBreakSpan a b).activeSession = s.activeSession := by
  simp only [State.addBreakSpan]
  split <;> rfl

theorem addBreakSpan_activeBreak (s : State) (a b : Nat) :
    (s.addBreakSpan a b).activeBreak = s.activeBreak := by
  simp only [State.addBreakSpan]
  split <;> rfl

theorem normalizeSession_activeBreak (s : State) (now : Nat) :
    (s.normalizeSession now).activeBreak = s.activeBreak := by
  simp only [State.normalizeSession]
  cases hs : s.activeSession with
  | none => rfl
  | some sess =>
      by_cases h1 : sameDate sess.start now
      · simp [h1]
      · simp only [h1, Bool.false_eq_true, if_false]
        by_cases h2 : sess.start < midnight now
        · simp only [h2, if_true]
          by_cases h3 : 0 < midnight now - sess.start <;>
            simp [h3, addWorkSpan_activeBreak]
        · simp [h2]

theorem normalizeBreak_activeSession (s : State) (now : Nat) :
    (s.normalizeBreak now).activeSession = s.activeSession := by
  simp only [State.normalizeBreak]
  cases hs : s.activeBreak with
  | none => rfl
  | some br =>
      by_cases h1 : sameDate br.start now
      · simp [h1]
      · simp only [h1, Bool.false_eq_true, if_false]
        by_cases h2 : br.start < midnight now
        · simp only [h2, if_true]
          by_cases h3 : 0 < midnight now - br.start <;>
            simp [h3, addBreakSpan_activeSession]
        · simp [h2]

theorem dateKey_midnight (t : Nat) : dateKey (midnight t) = dateKey t := by
  unfold dateKey midnight; omega

theorem sameDate_midnight (t : Nat) : sameDate (midnight t) t = true := by
  simp [sameDate, dateKey_midnight]

/-! ### Caught-up states: once an active span starts on today's date (or in
the future), the corresponding normalization block is the identity. -/

theorem normalizeSession_id (s : State) (now : Nat)
    (h : ∀ sess, s.activeSession = some sess →
      sameDate sess.start now = true ∨ midnight now ≤ sess.start) :
    s.normalizeSession now = s := by
  simp only [State.normalizeSession]
  cases hs : s.activeSession with
  | none => rfl
  | some sess =>
      rcases h sess hs with h1 | h1
      · simp [h1]
      · by_cases h2 : sameDate sess.start now
        · simp [h2]
        · have h3 : ¬ sess.start < midnight now := by omega
          simp [h2, h3]

theorem normalizeBreak_id (s : State) (now : Nat)
    (h : ∀ br, s.activeBreak = some br →
      sameDate br.start now = true ∨ midnight now ≤ br.start) :
    s.normalizeBreak now = s := by
  simp only [State.normalizeBreak]
  cases hs : s.activeBreak with
  | none => rfl
  | some br =>
      rcases h br hs with h1 | h1
      · simp [h1]
      · by_cases h2 : sameDate br.start now
        · simp [h2]
        · have h3 : ¬ br.start < midnight now := by omega
          simp [h2, h3]

theorem normalizeSession_caught (s : State) (now : Nat) :
    ∀ sess, (s.normalizeSession now).activeSession = some sess →
      sameDate sess.start now = true ∨ midnight now ≤ sess.start := by
  simp only [State.normalizeSession]
  cases hs : s.activeSession with
  | none =>
      intro sess h
      rw [hs] at h
      exact absurd h (by simp)
  | some sess0 =>
      by_cases h1 : sameDate sess0.start now
      · intro sess h
        simp only [h1, if_true] at h
        rw [hs] at h
        obtain rfl : sess0 = sess := by simpa using h
        exact Or.inl h1
      · simp only [h1, Bool.false_eq_true, if_false]
        by_cases h2 : sess0.start < midnight now
        · simp only [h2, if_true]
          intro sess h
          obtain rfl : ({ sess0 with start := midnight now } : Session) = sess := by simpa using h
          exact Or.inl (sameDate_midnight now)
        · simp only [h2, if_false]
          intro sess h
          rw [hs] at h
          obtain rfl : sess0 = sess := by simpa using h
          exact Or.inr (by omega)

theorem normalizeBreak_caught (s : State) (now : Nat) :
    ∀ br, (s.normalizeBreak now).activeBreak = some br →
      sameDate br.start now = true ∨ midnight now ≤ br.start := by
  simp only [State.normalizeBreak]
  cases hs : s.activeBreak with
  | none =>
      intro br h
      rw [hs] at h
      exact absurd h (by simp)
  | some br0 =>
      by_cases h1 : sameDate br0.start now
      · intro br h
        simp only [h1, if_true] at h
        rw [hs] at h
        obtain rfl : br0 = br := by simpa using h
        exact Or.inl h1
      · simp only [h1, Bool.false_eq_true, if_false]
        by_cases h2 : br0.start < midnight now
        · simp only [h2, if_true]
          intro br h
          obtain rfl : ({ br0 with start := midnight now } : Session) = br := by simpa using h
          exact Or.inl (sameDate_midnight now)
        · simp only [h2, if_false]
          intro br h
          rw [hs] at h
          obtain rfl : br0 = br := by simpa using h
          exact Or.inr (by omega)

/-- The upgrade-on-write seed used by `StopSession` and `addWorkSpan`: the
work-seconds base a write starts from.  A legacy log (only minutes set) is
seeded with `totalWorkMinutes * 60` before new time is added. -/
def seedWorkSeconds (log : DayLog) : Nat :=
  if log.totalWorkSeconds = 0 ∧ 0 < log.totalWorkMinutes then log.totalWorkMinutes * 60
  else log.totalWorkSeconds

/-! ### Exact descriptions of each operation on its defined branches -/

theorem StartSession_none (s : State) (now : Nat) (tags : List String) (note : String)
    (h : s.activeSession = none) :
    s.StartSession now tags note =
      (Except.ok (),
       { s with activeSession := some { start := now, endTime := none, tags := tags, note := note } }) := by
  simp [State.StartSession, h]

theorem StartSession_some (s : State) (now : Nat) (tags : List String) (note : String)
    (sess : Session) (h : s.activeSession = some sess) :
    s.StartSession now tags note = (Except.error Err.alreadyRunning, s) := by
  simp [State.StartSession, h]

theorem StopSession_none (s : State) (now : Nat) (h : s.activeSession = none) :
    s.StopSession now = (Except.error Err.noActiveSession, s) := by
  simp [State.StopSession, h]

theorem StopSession_skew (s : State) (now : Nat) (sess : Session)
    (h : s.activeSession = some sess) (hlt : now < sess.start) :
    s.StopSession now = (Except.error Err.clockSkewStop, s) := by
  simp [State.StopSession, h, hlt]

theorem StopSession_ok (s : State) (now : Nat) (sess : Session)
    (h : s.activeSession = some sess) (hle : sess.start ≤ now) :
    s.StopSession now =
      (Except.ok ((now - sess.start) / 60),
       { s with
         activeSession := none,
         days := setDay s.days (dateKey now)
           ({ date := (s.dayLog (dateKey now)).date,
              sessions := (s.dayLog (dateKey now)).sessions ++
                [{ start := sess.start, endTime := some now, tags := sess.tags, note := sess.note }],
              totalWorkMinutes := (seedWorkSeconds (s.dayLog (dateKey now)) + (now - sess.start)) / 60,
              totalWorkSeconds := seedWorkSeconds (s.dayLog (dateKey now)) + (now - sess.start),
              totalBreakMinutes := (s.dayLog (dateKey now)).totalBreakMinutes,
              breakCount := (s.dayLog (dateKey now)).breakCount,
              goalMinutes := s.goalMinutes }) }) := by
  have hnl : ¬ now < sess.start := by omega
  simp only [State.StopSession, h, hnl, if_false, seedWorkSeconds]
  split_ifs with hc <;> rfl

theorem StopBreak_none (s : State) (now : Nat) (h : s.activeBreak = none) :
    s.StopBreak now = (Except.error Err.noActiveBreak, s) := by
  simp [State.StopBreak, h]

theorem StopBreak_skew (s : State) (now : Nat) (br : Session)
    (h : s.activeBreak = some br) (hlt : now < br.start) :
    s.StopBreak now = (Except.error Err.clockSkewBreak, s) := by
  simp [State.StopBreak, h, hlt]

theorem StopBreak_ok (s : State) (now : Nat) (br : Session)
    (h : s.activeBreak = some br) (hle : br.start ≤ now) :
    s.StopBreak now =
      (Except.ok ((now - br.start) / 60),
       { s with
         activeBreak := none,
         days := setDay s.days (dateKey now)
           ({ s.dayLog (dateKey now) with
              breakCount := (s.dayLog (dateKey now)).breakCount + 1,
              totalBreakMinutes := (s.dayLog (dateKey now)).totalBreakMinutes + (now - br.start) / 60 }) }) := by
  have hnl : ¬ now < br.start := by omega
  simp only [State.StopBreak, h, hnl, if_false]

theorem addWorkSpan_pos (s : State) (start endT : Nat) (tags : List String) (note : String)
    (h : start < endT) :
    s.addWorkSpan start endT tags note =
      { s with days := (setDay s.days (dateKey start)
          { date := (s.dayLog (dateKey start)).date,
             sessions := (s.dayLog (dateKey start)).sessions ++
               [{ start := start, endTime := some endT, tags := tags, note := note }],
             totalWorkMinutes := (seedWorkSeconds (s.dayLog (dateKey start)) + (endT - start)) / 60,
             totalWorkSeconds := seedWorkSeconds (s.dayLog (dateKey start)) + (endT - start),
             totalBreakMinutes := (s.dayLog (dateKey start)).totalBreakMinutes,
             breakCount := (s.dayLog (dateKey start)).breakCount,
             goalMinutes := s.goalMinutes }) } := by
  have h0 : ¬ (endT - start = 0) := by omega
  simp only [State.addWorkSpan, h0, if_false, seedWorkSeconds]
  split_ifs with hc <;> rfl

theorem addBreakSpan_pos (s : State) (start endT : Nat) (h : (endT - start) / 60 ≠ 0) :
    s.addBreakSpan start endT =
      { s with days := (setDay s.days (dateKey start)
          { s.dayLog (dateKey start) with
            totalBreakMinutes := (s.dayLog (dateKey start)).totalBreakMinutes + (endT - start) / 60,
            breakCount := (s.dayLog (dateKey start)).breakCount + 1 }) } := by
  simp only [State.addBreakSpan, h, if_false]

theorem addBreakSpan_zero (s : State) (start endT : Nat) (h : (endT - start) / 60 = 0) :
    s.addBreakSpan start endT = s := by
  simp [State.addBreakSpan, h]

theorem normalizeSession_cross (s : State) (now : Nat) (sess : Session)
    (h : s.activeSession = some sess) (hd : sameDate sess.start now = false)
    (hlt : sess.start < midnight now) :
    s.normalizeSession now =
      { s.addWorkSpan sess.start (midnight now) sess.tags sess.note with
        activeSession := some { sess with start := midnight now } } := by
  simp only [State.normalizeSession, h, hd, Bool.false_eq_true, if_false]
  rw [if_pos hlt, if_pos (by omega)]

theorem normalizeBreak_none (s : State) (now : Nat) (h : s.activeBreak = none) :
    s.normalizeBreak now = s := by
  simp [State.normalizeBreak, h]

theorem normalizeBreak_cross (s : State) (now : Nat) (br : Session)
    (h : s.activeBreak = some br) (hd : sameDate br.start now = false)
    (hlt : br.start < midnight now) :
    s.normalizeBreak now =
      { s.addBreakSpan br.start (midnight now) with
        activeBreak := some { br with start := midnight now } } := by
  simp only [State.normalizeBreak, h, hd, Bool.false_eq_true, if_false]
  rw [if_pos hlt, if_pos (by omega)]

theorem addWorkSpan_zero (s : State) (start endT : Nat) (tags : List String) (note : String)
    (h : endT - start = 0) : s.addWorkSpan start endT tags note = s := by
  simp [State.addWorkSpan, h]

theorem dayLog_eq_of_getDay_some (t : State) (k : Nat) (v : DayLog)
    (h : getDay t.days k = some v) : t.dayLog k = v := by
  unfold State.dayLog
  rw [h]

theorem addWorkSpan_dayLog_ne (t : State) (a b : Nat) (tags : List String) (note : String)
    (k : Nat) (h : dateKey a ≠ k) :
    (t.addWorkSpan a b tags note).dayLog k = t.dayLog k := by
  by_cases h0 : b - a = 0
  · rw [addWorkSpan_zero t a b tags note h0]
  · rw [addWorkSpan_pos t a b tags note (by omega)]
    unfold State.dayLog
    dsimp only
    rw [getDay_setDay_ne _ _ _ _ h]

theorem addBreakSpan_dayLog_ne (t : State) (a b k : Nat) (h : dateKey a ≠ k) :
    (t.addBreakSpan a b).dayLog k = t.dayLog k := by
  by_cases hm : (b - a) / 60 = 0
  · rw [addBreakSpan_zero t a b hm]
  · rw [addBreakSpan_pos t a b hm]
    unfold State.dayLog
    dsimp only
    rw [getDay_setDay_ne _ _ _ _ h]

theorem addWorkSpan_dayLog_breaks (t : State) (a b : Nat) (tags : List String) (note : String)
    (k : Nat) :
    ((t.addWorkSpan a b tags note).dayLog k).totalBreakMinutes = (t.dayLog k).totalBreakMinutes ∧
    ((t.addWorkSpan a b tags note).dayLog k).breakCount = (t.dayLog k).breakCount := by
  by_cases hk : dateKey a = k
  · subst hk
    by_cases h0 : b - a = 0
    · rw [addWorkSpan_zero t a b tags note h0]
      refine ⟨?_, ?_⟩ <;> trivial
    · rw [addWorkSpan_pos t a b tags note (by omega)]
      rw [dayLog_eq_of_getDay_some _ _ _ (getDay_setDay_self _ _ _)]
      refine ⟨?_, ?_⟩ <;> trivial
  · rw [addWorkSpan_dayLog_ne t a b tags note k hk]
    refine ⟨?_, ?_⟩ <;> trivial

theorem addBreakSpan_dayLog_work (t : State) (a b k : Nat) :
    ((t.addBreakSpan a b).dayLog k).sessions = (t.dayLog k).sessions ∧
    ((t.addBreakSpan a b).dayLog k).totalWorkSeconds = (t.dayLog k).totalWorkSeconds ∧
    ((t.addBreakSpan a b).dayLog k).totalWorkMinutes = (t.dayLog k).totalWorkMinutes := by
  by_cases hk : dateKey a = k
  · subst hk
    by_cases hm : (b - a) / 60 = 0
    · rw [addBreakSpan_zero t a b hm]
      refine ⟨?_, ?_, ?_⟩ <;> trivial
    · rw [addBreakSpan_pos t a b hm]
      rw [dayLog_eq_of_getDay_some _ _ _ (getDay_setDay_self _ _ _)]
      refine ⟨?_, ?_, ?_⟩ <;> trivial
  · rw [addBreakSpan_dayLog_ne t a b k hk]
    refine ⟨?_, ?_, ?_⟩ <;> trivial

theorem normalizeSession_dayLog_breaks (t : State) (now k : Nat) :
    ((t.normalizeSession now).dayLog k).totalBreakMinutes = (t.dayLog k).totalBreakMinutes ∧
    ((t.normalizeSession now).dayLog k).breakCount = (t.dayLog k).breakCount := by
  simp only [State.normalizeSession]
  cases hs : t.activeSession with
  | none => refine ⟨?_, ?_⟩ <;> trivial
  | some sess =>
      by_cases h1 : sameDate sess.start now
      · simp only [h1, if_true]
        refine ⟨?_, ?_⟩ <;> trivial
      · simp only [h1, Bool.false_eq_true, if_false]
        by_cases h2 : sess.start < midnight now
        · simp only [h2, if_true]
          by_cases h3 : 0 < midnight now - sess.start
          · simp only [h3, if_true]
            exact addWorkSpan_dayLog_breaks t sess.start (midnight now) sess.tags sess.note k
          · simp only [h3, if_false]
            refine ⟨?_, ?_⟩ <;> trivial
        · simp only [h2, if_false]
          refine ⟨?_, ?_⟩ <;> trivial

theorem normalizeBreak_dayLog_work (t : State) (now k : Nat) :
    ((t.normalizeBreak now).dayLog k).sessions = (t.dayLog k).sessions ∧
    ((t.normalizeBreak now).dayLog k).totalWorkSeconds = (t.dayLog k).totalWorkSeconds ∧
    ((t.normalizeBreak now).dayLog k).totalWorkMinutes = (t.dayLog k).totalWorkMinutes := by
  simp only [State.normalizeBreak]
  cases hb : t.activeBreak with
  | none => refine ⟨?_, ?_, ?_⟩ <;> trivial
  | some br =>
      by_cases h1 : sameDate br.start now
      · simp only [h1, if_true]
        refine ⟨?_, ?_, ?_⟩ <;> trivial
      · simp only [h1, Bool.false_eq_true, if_false]
        by_cases h2 : br.start < midnight now
        · simp only [h2, if_true]
          by_cases h3 : 0 < midnight now - br.start
          · simp only [h3, if_true]
            exact addBreakSpan_dayLog_work t br.start (midnight now) k
          · simp only [h3, if_false]
            refine ⟨?_, ?_, ?_⟩ <;> trivial
        · simp only [h2, if_false]
          refine ⟨?_, ?_, ?_⟩ <;> trivial

theorem addBreakSpan_preserves_getDay (t : State) (a b k : Nat) (log : DayLog)
    (h : getDay t.days k = some log) :
    ∃ log2, getDay (t.addBreakSpan a b).days k = some log2 ∧
      log2.sessions = log.sessions ∧ log2.totalWorkSeconds = log.totalWorkSeconds ∧
      log2.totalWorkMinutes = log.totalWorkMinutes := by
  by_cases hm : (b - a) / 60 = 0
  · rw [addBreakSpan_zero t a b hm]
    refine ⟨log, h, ?_, ?_, ?_⟩ <;> trivial
  · rw [addBreakSpan_pos t a b hm]
    by_cases hk : dateKey a = k
    · subst hk
      refine ⟨_, getDay_setDay_self _ _ _, ?_, ?_, ?_⟩ <;>
        rw [dayLog_eq_of_getDay_some t (dateKey a) log h]
    · rw [getDay_setDay_ne _ _ _ _ hk]
      refine ⟨log, h, ?_, ?_, ?_⟩ <;> trivial

theorem normalizeBreak_preserves_getDay (t : State) (now k : Nat) (log : DayLog)
    (h : getDay t.days k = some log) :
    ∃ log2, getDay (t.normalizeBreak now).days k = some log2 ∧
      log2.sessions = log.sessions ∧ log2.totalWorkSeconds = log.totalWorkSeconds ∧
      log2.totalWorkMinutes = log.totalWorkMinutes := by
  simp only [State.normalizeBreak]
  cases hb : t.activeBreak with
  | none => refine ⟨log, h, ?_, ?_, ?_⟩ <;> trivial
  | some br =>
      by_cases h1 : sameDate br.start now
      · simp only [h1, if_true]
        refine ⟨log, h, ?_, ?_, ?_⟩ <;> trivial
      · simp only [h1, Bool.false_eq_true, if_false]
        by_cases h2 : br.start < midnight now
        · simp only [h2, if_true]
          by_cases h3 : 0 < midnight now - br.start
          · simp only [h3, if_true]
            exact addBreakSpan_preserves_getDay t br.start (midnight now) k log h
          · simp only [h3, if_false]
            refine ⟨log, h, ?_, ?_, ?_⟩ <;> trivial
        · simp only [h2, if_false]
          refine ⟨log, h, ?_, ?_, ?_⟩ <;> trivial

theorem StartBreak_someBreak (s : State) (now : Nat) (br : Session)
    (h : s.activeBreak = some br) :
    s.StartBreak now = (Except.error Err.alreadyOnBreak, s) := by
  simp [State.StartBreak, h]

theorem StartBreak_noSession (s : State) (now : Nat)
    (hb : s.activeBreak = none) (hs : s.activeSession = none) :
    s.StartBreak now =
      (Except.ok (),
       { s with activeBreak := some { start := now, endTime := none, tags := [], note := "" } }) := by
  simp [State.StartBreak, hb, hs]

theorem StartBreak_session_ok (s : State) (now : Nat) (sess : Session)
    (hb : s.activeBreak = none) (hs : s.activeSession = some sess) (hle : sess.start ≤ now) :
    s.StartBreak now =
      (Except.ok (),
       { (s.StopSession now).2 with
         activeBreak := some { start := now, endTime := none, tags := [], note := "" } }) := by
  have hss := StopSession_ok s now sess hs hle
  simp only [State.StartBreak, hb, hs, hss]

theorem StartBreak_session_skew (s : State) (now : Nat) (sess : Session)
    (hb : s.activeBreak = none) (hs : s.activeSession = some sess) (hlt : now < sess.start) :
    s.StartBreak now = (Except.error Err.clockSkewStop, s) := by
  have hss := StopSession_skew s now sess hs hlt
  simp only [State.StartBreak, hb, hs, hss]

/-! ### The claims -/

theorem Normalize_idem (s : State) (now : Nat) :
    (s.Normalize now).Normalize now = s.Normalize now := by
  unfold State.Normalize
  have h1 : ((s.normalizeSession now).normalizeBreak now).normalizeSession now
      = (s.normalizeSession now).normalizeBreak now := by
    apply normalizeSession_id
    intro sess h
    rw [normalizeBreak_activeSession] at h
    exact normalizeSession_caught s now sess h
  rw [h1]
  apply normalizeBreak_id
  intro br h
  exact normalizeBreak_caught (s.normalizeSession now) now br h

/-- C3: `Normalize` is idempotent once caught up: for every state and every
timestamp `now`, a second `Normalize now` right after a first one leaves the
state exactly as the first call left it. -/
theorem c3_normalize_idempotent (s : State) (now : Nat) :
    (s.Normalize now).Normalize now = s.Normalize now :=
  Normalize_idem s now

/-- C5: with a session active and `now` at or after its start, `StopSession`
returns the elapsed whole minutes, clears the active session, and the log of
`now`'s date gains the closed span, the elapsed seconds (on top of the
seeded base), and a re-derived minute total. -/
theorem c5_stop_session_records (s : State) (now : Nat) (sess : Session)
    (hact : s.activeSession = some sess) (hle : sess.start ≤ now) :
    (s.StopSession now).1 = Except.ok ((now - sess.start) / 60) ∧
    (s.StopSession now).2.activeSession = none ∧
    ∃ log', getDay (s.StopSession now).2.days (dateKey now) = some log' ∧
      log'.sessions = (s.dayLog (dateKey now)).sessions ++
        [{ start := sess.start, endTime := some now, tags := sess.tags, note := sess.note }] ∧
      log'.totalWorkSeconds = seedWorkSeconds (s.dayLog (dateKey now)) + (now - sess.start) ∧
      log'.totalWorkMinutes = (seedWorkSeconds (s.dayLog (dateKey now)) + (now - sess.start)) / 60 := by
  rw [StopSession_ok s now sess hact hle]
  exact ⟨rfl, rfl, _, getDay_setDay_self _ _ _, rfl, rfl, rfl⟩

/-- Witness for C5, the spec's own example: a session started 09:00 and
stopped 09:50 the same day returns 50 minutes, and that day's log shows
`totalWorkMinutes = 50`, `totalWorkSeconds = 3000`. -/
theorem c5_stop_session_records_witness :
    (sample0900.StopSession 35400).1 = Except.ok 50 ∧
    (sample0900.StopSession 35400).2.activeSession = none ∧
    ∃ log', getDay (sample0900.StopSession 35400).2.days (dateKey 35400) = some log' ∧
      log'.totalWorkMinutes = 50 ∧ log'.totalWorkSeconds = 3000 := by
  obtain ⟨h1, h2, log', hg, hsess, hsec, hmin⟩ :=
    c5_stop_session_records sample0900 35400
      { start := 32400, endTime := none, tags := [], note := "" } rfl (by decide)
  refine ⟨?_, h2, log', hg, ?_, ?_⟩
  · have h50 : (35400 - 32400) / 60 = 50 := by decide
    rw [h50] at h1
    exact h1
  · rw [hmin]
    decide
  · rw [hsec]
    decide

/-- C6: `StartSession` fails with AlreadyRunning iff a session is active;
`StartBreak` fails with AlreadyOnBreak iff a break is active; and with a
session (resp. break) active, `StopSession` (resp. `StopBreak`) fails with
a clock-skew error iff `now` is before the span's start. -/
theorem c6_error_conditions :
    (∀ (s : State) (now : Nat) (tags : List String) (note : String),
       (s.StartSession now tags note).1 = Except.error Err.alreadyRunning ↔ s.activeSession.isSome) ∧
    (∀ (s : State) (now : Nat),
       (s.StartBreak now).1 = Except.error Err.alreadyOnBreak ↔ s.activeBreak.isSome) ∧
    (∀ (s : State) (now : Nat) (sess : Session), s.activeSession = some sess →
       ((s.StopSession now).1 = Except.error Err.clockSkewStop ↔ now < sess.start)) ∧
    (∀ (s : State) (now : Nat) (br : Session), s.activeBreak = some br →
       ((s.StopBreak now).1 = Except.error Err.clockSkewBreak ↔ now < br.start)) := by
  refine ⟨?_, ?_, ?_, ?_⟩
  · intro s now tags note
    cases h : s.activeSession with
    | none => simp [StartSession_none s now tags note h, h]
    | some sess => simp [StartSession_some s now tags note sess h, h]
  · intro s now
    cases hb : s.activeBreak with
    | some br => simp [StartBreak_someBreak s now br hb, hb]
    | none =>
        cases hs : s.activeSession with
        | none => simp [StartBreak_noSession s now hb hs, hb]
        | some sess =>
            by_cases hlt : now < sess.start
            · simp [StartBreak_session_skew s now sess hb hs hlt, hb]
            · simp [StartBreak_session_ok s now sess hb hs (by omega), hb]
  · intro s now sess h
    by_cases hlt : now < sess.start
    · simp [StopSession_skew s now sess h hlt, hlt]
    · simp [StopSession_ok s now sess h (by omega), hlt]
  · intro s now br h
    by_cases hlt : now < br.start
    · simp [StopBreak_skew s now br h hlt, hlt]
    · simp [StopBreak_ok s now br h (by omega), hlt]

/-- Witness for C6: on an empty state a start succeeds (no AlreadyRunning),
and a session started at t=100 refuses to stop at t=40 with clock skew. -/
theorem c6_error_conditions_witness :
    ¬ ((emptyState.StartSession 0 [] "").1 = Except.error Err.alreadyRunning) ∧
    (sample100.StopSession 40).1 = Except.error Err.clockSkewStop := by
  constructor
  · intro h
    have h2 := (c6_error_conditions.1 emptyState 0 [] "").mp h
    simp [emptyState] at h2
  · exact (c6_error_conditions.2.2.1 sample100 40
      { start := 100, endTime := none, tags := [], note := "" } rfl).mpr (by decide)

/-- C9: `HumanMinutes` renders values below 60 as `"Nm"` (never `"0h0m"` for
0), and values of 60 or more as `"Hh"` when the minute remainder is 0 and as
`"HhMMm"` (two-digit minutes) otherwise. -/
theorem c9_human_minutes :
    (∀ n : Int, n < 60 → HumanMinutes n = toString n ++ "m") ∧
    (∀ n : Int, 60 ≤ n → n % 60 = 0 → HumanMinutes n = toString (n / 60) ++ "h") ∧
    (∀ n : Int, 60 ≤ n → n % 60 ≠ 0 →
       HumanMinutes n = toString (n / 60) ++ "h" ++ pad2 (n % 60) ++ "m") ∧
    HumanMinutes 0 = "0m" ∧ HumanMinutes 0 ≠ "0h0m" ∧
    HumanMinutes 59 = "59m" ∧ HumanMinutes 60 = "1h" ∧ HumanMinutes 90 = "1h30m" := by
  refine ⟨?_, ?_, ?_, by decide, by decide, by decide, by decide, by decide⟩
  · intro n h
    simp [HumanMinutes, h]
  · intro n h h0
    rw [HumanMinutes.eq_def, if_neg (by omega)]
    simp [h0]
  · intro n h h0
    rw [HumanMinutes.eq_def, if_neg (by omega)]
    simp [h0]

/-- Witness for C9: 61 minutes renders via the `"HhMMm"` branch. -/
theorem c9_human_minutes_witness :
    HumanMinutes 61 = toString ((61 : Int) / 60) ++ "h" ++ pad2 ((61 : Int) % 60) ++ "m" :=
  c9_human_minutes.2.2.1 61 (by decide) (by decide)

/-- C10: every lifecycle operation is atomic on error: whenever it returns
an error, the resulting state is exactly the input state. -/
theorem c10_atomic_on_error :
    (∀ (s : State) (now : Nat) (tags : List String) (note : String) (e : Err),
       (s.StartSession now tags note).1 = Except.error e → (s.StartSession now tags note).2 = s) ∧
    (∀ (s : State) (now : Nat) (e : Err),
       (s.StopSession now).1 = Except.error e → (s.StopSession now).2 = s) ∧
    (∀ (s : State) (now : Nat) (e : Err),
       (s.StartBreak now).1 = Except.error e → (s.StartBreak now).2 = s) ∧
    (∀ (s : State) (now : Nat) (e : Err),
       (s.StopBreak now).1 = Except.error e → (s.StopBreak now).2 = s) := by
  refine ⟨?_, ?_, ?_, ?_⟩
  · intro s now tags note e h
    cases hs : s.activeSession with
    | none => rw [StartSession_none s now tags note hs] at h; simp at h
    | some sess => rw [StartSession_some s now tags note sess hs]
  · intro s now e h
    cases hs : s.activeSession with
    | none => rw [StopSession_none s now hs]
    | some sess =>
        by_cases hlt : now < sess.start
        · rw [StopSession_skew s now sess hs hlt]
        · rw [StopSession_ok s now sess hs (by omega)] at h; simp at h
  · intro s now e h
    cases hb : s.activeBreak with
    | some br => rw [StartBreak_someBreak s now br hb]
    | none =>
        cases hs : s.activeSession with
        | none => rw [StartBreak_noSession s now hb hs] at h; simp at h
        | some sess =>
            by_cases hlt : now < sess.start
            · rw [StartBreak_session_skew s now sess hb hs hlt]
            · rw [StartBreak_session_ok s now sess hb hs (by omega)] at h; simp at h
  · intro s now e h
    cases hb : s.activeBreak with
    | none => rw [StopBreak_none s now hb]
    | some br =>
        by_cases hlt : now < br.start
        · rw [StopBreak_skew s now br hb hlt]
        · rw [StopBreak_ok s now br hb (by omega)] at h; simp at h

/-- Witness for C10: stopping with no active session errors and leaves the
(empty) state untouched. -/
theorem c10_atomic_on_error_witness :
    (emptyState.StopSession 5).2 = emptyState :=
  c10_atomic_on_error.2.1 emptyState 5 Err.noActiveSession rfl

/-- C2 counterexample: a session started 10:00 on day 0 and normalized once
at 05:00 on day 2 is rebased all the way to day 2's midnight in that single
call; the whole 38-hour span is credited to day 0's log (136800 s), day 1
receives nothing, and a second call with the same `now` is already a no-op —
refuting "at most one day boundary per call, once per elapsed day, each
day's portion to its own DayLog". -/
theorem c2_counterexample :
    (multiDayState.Normalize 190800).activeSession =
      some { start := 172800, endTime := none, tags := [], note := "" } ∧
    getDay (multiDayState.Normalize 190800).days 0 =
      some { date := 0,
             sessions := [{ start := 36000, endTime := some 172800, tags := [], note := "" }],
             totalWorkMinutes := 2280, totalWorkSeconds := 136800,
             totalBreakMinutes := 0, breakCount := 0, goalMinutes := 720 } ∧
    getDay (multiDayState.Normalize 190800).days 1 = none ∧
    (multiDayState.Normalize 190800).Normalize 190800 = multiDayState.Normalize 190800 := by
  decide

/-- C2 as amended: for every state with an active span — session or break —
that started before `now`'s date, a single `Normalize now` call folds
**all** elapsed day boundaries at once: the span's entire portion before
midnight of `now`'s date is credited to the **start date's** DayLog
(seconds-accurate for a work span; whole minutes, with a sub-minute
remainder dropped, for a break span), every other day's corresponding
totals are untouched, the active span's start is rewritten to midnight of
`now`'s date, and the call has fully converged — a second call with the
same `now` changes nothing. -/
theorem c2_single_call_credits_start_date :
    (∀ (s : State) (sess : Session) (now : Nat),
       s.activeSession = some sess →
       sameDate sess.start now = false →
       sess.start < midnight now →
       (s.Normalize now).activeSession = some { sess with start := midnight now } ∧
       (∃ log', getDay (s.Normalize now).days (dateKey sess.start) = some log' ∧
          log'.totalWorkSeconds =
            seedWorkSeconds (s.dayLog (dateKey sess.start)) + (midnight now - sess.start) ∧
          log'.totalWorkMinutes =
            (seedWorkSeconds (s.dayLog (dateKey sess.start)) + (midnight now - sess.start)) / 60 ∧
          log'.sessions = (s.dayLog (dateKey sess.start)).sessions ++
            [{ start := sess.start, endTime := some (midnight now),
               tags := sess.tags, note := sess.note }]) ∧
       (∀ k, k ≠ dateKey sess.start →
          ((s.Normalize now).dayLog k).sessions = (s.dayLog k).sessions ∧
          ((s.Normalize now).dayLog k).totalWorkSeconds = (s.dayLog k).totalWorkSeconds ∧
          ((s.Normalize now).dayLog k).totalWorkMinutes = (s.dayLog k).totalWorkMinutes)) ∧
    (∀ (s : State) (br : Session) (now : Nat),
       s.activeBreak = some br →
       sameDate br.start now = false →
       br.start < midnight now →
       (s.Normalize now).activeBreak = some { br with start := midnight now } ∧
       (0 < (midnight now - br.start) / 60 →
          ∃ log', getDay (s.Normalize now).days (dateKey br.start) = some log' ∧
            log'.totalBreakMinutes =
              (s.dayLog (dateKey br.start)).totalBreakMinutes + (midnight now - br.start) / 60 ∧
            log'.breakCount = (s.dayLog (dateKey br.start)).breakCount + 1) ∧
       (∀ k, k ≠ dateKey br.start →
          ((s.Normalize now).dayLog k).totalBreakMinutes = (s.dayLog k).totalBreakMinutes ∧
          ((s.Normalize now).dayLog k).breakCount = (s.dayLog k).breakCount)) ∧
    (∀ (s : State) (now : Nat), (s.Normalize now).Normalize now = s.Normalize now) := by
  refine ⟨?_, ?_, fun s now => Normalize_idem s now⟩
  · intro s sess now hact hdate hlt
    have hcross := normalizeSession_cross s now sess hact hdate hlt
    have hadd := addWorkSpan_pos s sess.start (midnight now) sess.tags sess.note hlt
    refine ⟨?_, ?_, ?_⟩
    · simp only [State.Normalize]
      rw [normalizeBreak_activeSession, hcross]
    · simp only [State.Normalize]
      have hget : ∃ v, getDay (s.normalizeSession now).days (dateKey sess.start) = some v ∧
          v.totalWorkSeconds =
            seedWorkSeconds (s.dayLog (dateKey sess.start)) + (midnight now - sess.start) ∧
          v.totalWorkMinutes =
            (seedWorkSeconds (s.dayLog (dateKey sess.start)) + (midnight now - sess.start)) / 60 ∧
          v.sessions = (s.dayLog (dateKey sess.start)).sessions ++
            [{ start := sess.start, endTime := some (midnight now),
               tags := sess.tags, note := sess.note }] := by
        rw [hcross]
        dsimp only
        rw [hadd]
        dsimp only
        exact ⟨_, getDay_setDay_self _ _ _, rfl, rfl, rfl⟩
      obtain ⟨v, hv, hvsec, hvmin, hvsess⟩ := hget
      obtain ⟨log2, hg2, hs2, hsec2, hmin2⟩ :=
        normalizeBreak_preserves_getDay (s.normalizeSession now) now (dateKey sess.start) v hv
      exact ⟨log2, hg2, hsec2.trans hvsec, hmin2.trans hvmin, hs2.trans hvsess⟩
    · intro k hk
      simp only [State.Normalize]
      have hw := normalizeBreak_dayLog_work (s.normalizeSession now) now k
      have hns : (s.normalizeSession now).dayLog k = s.dayLog k := by
        rw [hcross]
        exact addWorkSpan_dayLog_ne s sess.start (midnight now) sess.tags sess.note k
          (Ne.symm hk)
      rw [hns] at hw
      exact hw
  · intro s br now hbr hdate hlt
    have hb1 : (s.normalizeSession now).activeBreak = some br := by
      rw [normalizeSession_activeBreak, hbr]
    have hcross := normalizeBreak_cross (s.normalizeSession now) now br hb1 hdate hlt
    refine ⟨?_, ?_, ?_⟩
    · simp only [State.Normalize]
      rw [hcross]
    · intro hm
      have hm0 : (midnight now - br.start) / 60 ≠ 0 := by omega
      simp only [State.Normalize]
      rw [hcross]
      dsimp only
      rw [addBreakSpan_pos (s.normalizeSession now) br.start (midnight now) hm0]
      dsimp only
      refine ⟨_, getDay_setDay_self _ _ _, ?_, ?_⟩
      · exact congrArg (fun x => x + (midnight now - br.start) / 60)
          (normalizeSession_dayLog_breaks s now (dateKey br.start)).1
      · exact congrArg (fun x => x + 1)
          (normalizeSession_dayLog_breaks s now (dateKey br.start)).2
    · intro k hk
      simp only [State.Normalize]
      rw [hcross]
      have hne : ((s.normalizeSession now).addBreakSpan br.start (midnight now)).dayLog k
          = (s.normalizeSession now).dayLog k :=
        addBreakSpan_dayLog_ne (s.normalizeSession now) br.start (midnight now) k (Ne.symm hk)
      constructor
      · exact (congrArg DayLog.totalBreakMinutes hne).trans
          (normalizeSession_dayLog_breaks s now k).1
      · exact (congrArg DayLog.breakCount hne).trans
          (normalizeSession_dayLog_breaks s now k).2

/-- Witness for the amended C2, at the counterexample's input, for both a
work span and a break span crossing two midnights. -/
theorem c2_single_call_credits_start_date_witness :
    (multiDayState.Normalize 190800).activeSession =
      some { start := midnight 190800, endTime := none, tags := [], note := "" } ∧
    (multiDayBreakState.Normalize 190800).activeBreak =
      some { start := midnight 190800, endTime := none, tags := [], note := "" } ∧
    ∃ log', getDay (multiDayBreakState.Normalize 190800).days (dateKey 36000) = some log' ∧
      log'.totalBreakMinutes =
        (multiDayBreakState.dayLog (dateKey 36000)).totalBreakMinutes +
          (midnight 190800 - 36000) / 60 := by
  obtain ⟨ha, hacred, haframe⟩ :=
    c2_single_call_credits_start_date.1 multiDayState
      { start := 36000, endTime := none, tags := [], note := "" } 190800
      rfl (by decide) (by decide)
  obtain ⟨hb, hbcred, hbframe⟩ :=
    c2_single_call_credits_start_date.2.1 multiDayBreakState
      { start := 36000, endTime := none, tags := [], note := "" } 190800
      rfl (by decide) (by decide)
  obtain ⟨log', hg, htbm, hbc⟩ := hbcred (by decide)
  exact ⟨ha, hb, log', hg, htbm⟩

/-- C4: after `StopSession` and after the Normalizer's work split
(`addWorkSpan`), the touched day log satisfies
`totalWorkMinutes = totalWorkSeconds / 60`, and its seconds equal the
upgrade-on-write seed (legacy minutes × 60 when seconds were absent)
plus the newly added span's seconds. -/
theorem c4_work_total_invariant :
    (∀ (s : State) (now : Nat) (sess : Session),
       s.activeSession = some sess → sess.start ≤ now →
       ∃ log', getDay (s.StopSession now).2.days (dateKey now) = some log' ∧
         log'.totalWorkMinutes = log'.totalWorkSeconds / 60 ∧
         log'.totalWorkSeconds = seedWorkSeconds (s.dayLog (dateKey now)) + (now - sess.start)) ∧
    (∀ (s : State) (a b : Nat) (tags : List String) (note : String), a < b →
       ∃ log', getDay (s.addWorkSpan a b tags note).days (dateKey a) = some log' ∧
         log'.totalWorkMinutes = log'.totalWorkSeconds / 60 ∧
         log'.totalWorkSeconds = seedWorkSeconds (s.dayLog (dateKey a)) + (b - a)) := by
  constructor
  · intro s now sess h hle
    rw [StopSession_ok s now sess h hle]
    exact ⟨_, getDay_setDay_self _ _ _, rfl, rfl⟩
  · intro s a b tags note hab
    rw [addWorkSpan_pos s a b tags note hab]
    exact ⟨_, getDay_setDay_self _ _ _, rfl, rfl⟩

/-- Witness for C4: stopping at t = 90 a session started at t = 0 over a
legacy log (5 minutes, 0 seconds) seeds 300 s and adds 90 s. -/
theorem c4_work_total_invariant_witness :
    ∃ log', getDay (legacyState.StopSession 90).2.days (dateKey 90) = some log' ∧
      log'.totalWorkMinutes = log'.totalWorkSeconds / 60 ∧
      log'.totalWorkSeconds = seedWorkSeconds (legacyState.dayLog (dateKey 90)) + (90 - 0) :=
  c4_work_total_invariant.1 legacyState 90
    { start := 0, endTime := none, tags := [], note := "" } rfl (by decide)

/-- C7: `StartBreak` while a session is active (and no break is) succeeds,
its resulting state is exactly the `StopSession` result with the break set
(full implicit-stop side effects), and a subsequent `StartSession` while the
break is still active succeeds, leaving both spans set. -/
theorem c7_break_implicit_stop (s : State) (now : Nat) (sess : Session)
    (hb : s.activeBreak = none) (hs : s.activeSession = some sess) (hle : sess.start ≤ now) :
    (s.StartBreak now).1 = Except.ok () ∧
    (s.StartBreak now).2 =
      { (s.StopSession now).2 with
        activeBreak := some { start := now, endTime := none, tags := [], note := "" } } ∧
    ∀ (now2 : Nat) (tags2 : List String) (note2 : String),
      ((s.StartBreak now).2.StartSession now2 tags2 note2).1 = Except.ok () ∧
      ((s.StartBreak now).2.StartSession now2 tags2 note2).2.activeSession =
        some { start := now2, endTime := none, tags := tags2, note := note2 } ∧
      ((s.StartBreak now).2.StartSession now2 tags2 note2).2.activeBreak =
        some { start := now, endTime := none, tags := [], note := "" } := by
  have hsb := StartBreak_session_ok s now sess hb hs hle
  have hnone : (s.StartBreak now).2.activeSession = none := by
    rw [hsb, StopSession_ok s now sess hs hle]
  refine ⟨by rw [hsb], by rw [hsb], ?_⟩
  intro now2 tags2 note2
  have hstart := StartSession_none ((s.StartBreak now).2) now2 tags2 note2 hnone
  refine ⟨by rw [hstart], by rw [hstart], ?_⟩
  rw [hstart]
  show (s.StartBreak now).2.activeBreak = _
  rw [hsb]

/-- Witness for C7: break at t = 160 over a session started at t = 100, then
a new session at t = 200 while the break is still running. -/
theorem c7_break_implicit_stop_witness :
    (sample100.StartBreak 160).1 = Except.ok () ∧
    ((sample100.StartBreak 160).2.StartSession 200 [] "x").1 = Except.ok () ∧
    ((sample100.StartBreak 160).2.StartSession 200 [] "x").2.activeBreak =
      some { start := 160, endTime := none, tags := [], note := "" } := by
  obtain ⟨h1, h2, h3⟩ :=
    c7_break_implicit_stop sample100 160
      { start := 100, endTime := none, tags := [], note := "" } rfl rfl (by decide)
  exact ⟨h1, (h3 200 [] "x").1, (h3 200 [] "x").2.2⟩

/-- C8: work-span writes (`StopSession`, `addWorkSpan`) overwrite the day
log's goal snapshot with the current global goal; break writes (`StopBreak`,
`addBreakSpan`) leave an existing day log's goal snapshot unchanged. -/
theorem c8_goal_snapshot :
    (∀ (s : State) (now : Nat) (sess : Session),
       s.activeSession = some sess → sess.start ≤ now →
       ∃ log', getDay (s.StopSession now).2.days (dateKey now) = some log' ∧
         log'.goalMinutes = s.goalMinutes) ∧
    (∀ (s : State) (a b : Nat) (tags : List String) (note : String), a < b →
       ∃ log', getDay (s.addWorkSpan a b tags note).days (dateKey a) = some log' ∧
         log'.goalMinutes = s.goalMinutes) ∧
    (∀ (s : State) (now : Nat) (br : Session) (log : DayLog),
       s.activeBreak = some br → br.start ≤ now →
       getDay s.days (dateKey now) = some log →
       ∃ log', getDay (s.StopBreak now).2.days (dateKey now) = some log' ∧
         log'.goalMinutes = log.goalMinutes) ∧
    (∀ (s : State) (a b : Nat) (log : DayLog),
       getDay s.days (dateKey a) = some log →
       ∃ log', getDay (s.addBreakSpan a b).days (dateKey a) = some log' ∧
         log'.goalMinutes = log.goalMinutes) := by
  refine ⟨?_, ?_, ?_, ?_⟩
  · intro s now sess h hle
    rw [StopSession_ok s now sess h hle]
    exact ⟨_, getDay_setDay_self _ _ _, rfl⟩
  · intro s a b tags note hab
    rw [addWorkSpan_pos s a b tags note hab]
    exact ⟨_, getDay_setDay_self _ _ _, rfl⟩
  · intro s now br log hb hle hlog
    rw [StopBreak_ok s now br hb hle]
    refine ⟨_, getDay_setDay_self _ _ _, ?_⟩
    simp [State.dayLog, hlog]
  · intro s a b log hlog
    by_cases h : (b - a) / 60 = 0
    · rw [addBreakSpan_zero s a b h]
      exact ⟨log, hlog, rfl⟩
    · rw [addBreakSpan_pos s a b h]
      refine ⟨_, getDay_setDay_self _ _ _, ?_⟩
      simp [State.dayLog, hlog]

/-- Witness for C8: stopping a break at t = 120 over day 0's log leaves its
goal snapshot at 555 even though the current goal is 720. -/
theorem c8_goal_snapshot_witness :
    ∃ log', getDay (snapshotState.StopBreak 120).2.days (dateKey 120) = some log' ∧
      log'.goalMinutes = 555 := by
  obtain ⟨log', hg, he⟩ :=
    c8_goal_snapshot.2.2.1 snapshotState 120
      { start := 0, endTime := none, tags := [], note := "" } snapshotLog rfl (by decide) rfl
  exact ⟨log', hg, he⟩

/-- C1: with a session active since 23:50 of day `D` (and no active break),
`Normalize` at 00:10 of day `D+1` credits a closed 10-minute span
`[23:50, midnight)` to day `D`'s log — adding 600 to `totalWorkSeconds`
(here the day-`D` log is not a legacy one, so the seed is its own seconds)
and re-deriving `totalWorkMinutes` — rewrites the active session's start to
day `D+1`'s midnight, and an immediate `TodaySummary` reports 10 minutes of
work for the new day (which had no stored log). -/
theorem c1_midnight_split (s : State) (sess : Session) (D : Nat)
    (hact : s.activeSession = some sess)
    (hstart : sess.start = 86400 * D + 85800)
    (hbr : s.activeBreak = none)
    (hseed : ¬ ((s.dayLog D).totalWorkSeconds = 0 ∧ 0 < (s.dayLog D).totalWorkMinutes))
    (hfresh : getDay s.days (D + 1) = none) :
    (∃ log', getDay (s.Normalize (86400 * D + 87000)).days D = some log' ∧
       log'.sessions = (s.dayLog D).sessions ++
         [{ start := 86400 * D + 85800, endTime := some (86400 * D + 86400),
            tags := sess.tags, note := sess.note }] ∧
       log'.totalWorkSeconds = (s.dayLog D).totalWorkSeconds + 600 ∧
       log'.totalWorkMinutes = ((s.dayLog D).totalWorkSeconds + 600) / 60) ∧
    (s.Normalize (86400 * D + 87000)).activeSession =
      some { sess with start := 86400 * D + 86400 } ∧
    (s.Normalize (86400 * D + 87000)).TodaySummary (86400 * D + 87000) = (10, 10) := by
  have hmid : midnight (86400 * D + 87000) = 86400 * D + 86400 := by
    unfold midnight; omega
  have hdk : dateKey (86400 * D + 85800) = D := by
    unfold dateKey; omega
  have hdk3 : dateKey (86400 * D + 87000) = D + 1 := by
    unfold dateKey; omega
  have hsd : sameDate sess.start (86400 * D + 87000) = false := by
    rw [hstart]
    simp only [sameDate, hdk, hdk3, decide_eq_false_iff_not]
    omega
  have hlt : sess.start < midnight (86400 * D + 87000) := by
    rw [hstart, hmid]; omega
  have hb2 : (s.normalizeSession (86400 * D + 87000)).activeBreak = none := by
    rw [normalizeSession_activeBreak, hbr]
  have hnorm : s.Normalize (86400 * D + 87000) =
      { s.addWorkSpan (86400 * D + 85800) (86400 * D + 86400) sess.tags sess.note with
        activeSession := some { sess with start := 86400 * D + 86400 } } := by
    unfold State.Normalize
    rw [normalizeBreak_none _ _ hb2,
        normalizeSession_cross s (86400 * D + 87000) sess hact hsd hlt, hmid, hstart]
  have hadd := addWorkSpan_pos s (86400 * D + 85800) (86400 * D + 86400) sess.tags sess.note
    (by omega)
  rw [hdk] at hadd
  have hsw : seedWorkSeconds (s.dayLog D) = (s.dayLog D).totalWorkSeconds := by
    unfold seedWorkSeconds
    rw [if_neg hseed]
  have hsub : 86400 * D + 86400 - (86400 * D + 85800) = 600 := by omega
  refine ⟨?_, ?_, ?_⟩
  · rw [hnorm, hadd]
    refine ⟨_, getDay_setDay_self _ _ _, rfl, ?_, ?_⟩
    · rw [hsw, hsub]
    · rw [hsw, hsub]
  · rw [hnorm]
  · rw [hnorm, hadd]
    simp only [State.TodaySummary, hdk3]
    rw [getDay_setDay_ne _ _ _ _ (by omega), hfresh]
    simp only [minutesBetween]
    rw [if_pos (by omega)]
    have h600 : 86400 * D + 87000 - (86400 * D + 86400) = 600 := by omega
    rw [h600]
    norm_num

/-- Witness for C1: the concrete instance on day 0 — session since 23:50
(t = 85800), normalized at 00:10 next day (t = 87000); `TodaySummary`
reports 10 minutes. -/
theorem c1_midnight_split_witness :
    (∃ log', getDay (lateNightState.Normalize (86400 * 0 + 87000)).days 0 = some log' ∧
       log'.totalWorkSeconds = (lateNightState.dayLog 0).totalWorkSeconds + 600) ∧
    (lateNightState.Normalize (86400 * 0 + 87000)).TodaySummary (86400 * 0 + 87000) =
      (10, 10) := by
  obtain ⟨⟨log', hg, hsess, hsec, hmin⟩, hact, hsum⟩ :=
    c1_midnight_split lateNightState
      { start := 85800, endTime := none, tags := [], note := "" } 0
      rfl (by norm_num) rfl (by decide) rfl
  exact ⟨⟨log', hg, hsec⟩, hsum⟩

end Daily
